import Mathlib

/-
Verification of the FNOL claims-processing core (fnol_agent.py).

The Python source is shallowly embedded as executable Lean definitions:
strings become `String` / `List Char`, Python `None` becomes `Option`,
the `dict` of extracted fields becomes an association list with explicit
update, Python floats produced by `float()` on digit-and-dot strings are
represented by their exact rational value (`Rat`; every value reached by
the claims is exactly representable), and code that can raise becomes
`Except PyErr`.  The regular-expression table of `FIELD_PATTERNS` uses
only literals, single-character classes, `*`, `+`, `?`, the lazy `.*?`
and one trailing capture group, all under `re.IGNORECASE | re.DOTALL`;
these are embedded as a small prioritized backtracking matcher over
lists of single-character pieces, fuelled so that it is structurally
recursive (the fuel is far beyond what any input in this file consumes).
Character classes are modelled over ASCII, matching the documents the
program is written for.
-/

set_option maxRecDepth 40000

/-! ## Character helpers (ASCII models of the Python primitives used) -/

/-- Python whitespace as used by `\s` and `str.strip` (ASCII range). -/
def pySpace (c : Char) : Bool :=
  c = ' ' || c = '\t' || c = '\n' || c = '\r' || c = '\x0b' || c = '\x0c'

/-- `str.strip()`: drop leading and trailing whitespace. -/
def pyStrip (cs : List Char) : List Char :=
  ((cs.dropWhile pySpace).reverse.dropWhile pySpace).reverse

/-- `str.lower()` (ASCII). -/
def pyLower (s : String) : String :=
  String.mk (s.data.map Char.toLower)

/-- `str.upper()` (ASCII). -/
def pyUpper (s : String) : String :=
  String.mk (s.data.map Char.toUpper)

/-- Does `hay` start with `needle` (exact characters)? -/
def startsWithList : List Char → List Char → Bool
  | _, [] => true
  | [], _ :: _ => false
  | h :: hs, n :: ns => h = n && startsWithList hs ns

/-- Python's `needle in hay` substring test (exact characters). -/
def containsSub (hay needle : List Char) : Bool :=
  startsWithList hay needle ||
    match hay with
    | [] => false
    | _ :: t => containsSub t needle

/-! ## A miniature regex engine for the constructs used by FIELD_PATTERNS

Pieces match single characters; `star`/`plus`/`opt` repeat a
single-character atom.  Matching is prioritized backtracking exactly as
in Python's `re`: greedy repetition prefers consuming, lazy repetition
prefers skipping, and alternatives are explored in that order. -/

inductive RPiece where
  | one  (p : Char → Bool)
  | star (p : Char → Bool) (lazy : Bool)
  | plus (p : Char → Bool)
  | opt  (p : Char → Bool)

/-- A compiled pattern: the pieces before the capture group, and the
pieces of the single trailing capture group (`none` when the pattern has
no group, as for the Asset Type title-phrase pattern). -/
structure PyPattern where
  pre : List RPiece
  grp : Option (List RPiece)

/-- Match the capture-group pieces against `s`; on success return the
captured characters and the remaining input.  Highest-priority match
first, exactly as Python's backtracking engine. -/
def runGrp : Nat → List RPiece → List Char → Option (List Char × List Char)
  | 0, _, _ => none
  | Nat.succ fuel, ps, s =>
    match ps with
    | [] => some ([], s)
    | RPiece.one p :: ps' =>
      match s with
      | [] => none
      | c :: s' =>
        if p c then
          match runGrp fuel ps' s' with
          | none => none
          | some (cap, r) => some (c :: cap, r)
        else none
    | RPiece.star p lz :: ps' =>
      if lz then
        match runGrp fuel ps' s with
        | some r => some r
        | none =>
          match s with
          | [] => none
          | c :: s' =>
            if p c then
              match runGrp fuel (RPiece.star p lz :: ps') s' with
              | none => none
              | some (cap, r) => some (c :: cap, r)
            else none
      else
        match s with
        | [] => runGrp fuel ps' s
        | c :: s' =>
          if p c then
            match runGrp fuel (RPiece.star p lz :: ps') s' with
            | none => runGrp fuel ps' s
            | some (cap, r) => some (c :: cap, r)
          else runGrp fuel ps' s
    | RPiece.plus p :: ps' =>
      match s with
      | [] => none
      | c :: s' =>
        if p c then
          match runGrp fuel (RPiece.star p false :: ps') s' with
          | none => none
          | some (cap, r) => some (c :: cap, r)
        else none
    | RPiece.opt p :: ps' =>
      match s with
      | [] => runGrp fuel ps' s
      | c :: s' =>
        if p c then
          match runGrp fuel ps' s' with
          | none => runGrp fuel ps' s
          | some (cap, r) => some (c :: cap, r)
        else runGrp fuel ps' s

/-- Match the pieces before the group, then the group, at the head of
`s`.  Result: `none` = the pattern does not match here; `some none` =
the pattern matches but has no capture group; `some (some cap)` = the
pattern matches with capture `cap`. -/
def runPre : Nat → Option (List RPiece) → List RPiece → List Char →
    Option (Option (List Char))
  | 0, _, _, _ => none
  | Nat.succ fuel, grp, ps, s =>
    match ps with
    | [] =>
      match grp with
      | none => some none
      | some gps =>
        match runGrp fuel gps s with
        | none => none
        | some (cap, _) => some (some cap)
    | RPiece.one p :: ps' =>
      match s with
      | [] => none
      | c :: s' => if p c then runPre fuel grp ps' s' else none
    | RPiece.star p lz :: ps' =>
      if lz then
        match runPre fuel grp ps' s with
        | some g => some g
        | none =>
          match s with
          | [] => none
          | c :: s' =>
            if p c then runPre fuel grp (RPiece.star p lz :: ps') s' else none
      else
        match s with
        | [] => runPre fuel grp ps' s
        | c :: s' =>
          if p c then
            match runPre fuel grp (RPiece.star p lz :: ps') s' with
            | some g => some g
            | none => runPre fuel grp ps' s
          else runPre fuel grp ps' s
    | RPiece.plus p :: ps' =>
      match s with
      | [] => none
      | c :: s' =>
        if p c then runPre fuel grp (RPiece.star p false :: ps') s' else none
    | RPiece.opt p :: ps' =>
      match s with
      | [] => runPre fuel grp ps' s
      | c :: s' =>
        if p c then
          match runPre fuel grp ps' s' with
          | some g => some g
          | none => runPre fuel grp ps' s
        else runPre fuel grp ps' s

/-- Fuel for one anchored match attempt; far larger than any number of
backtracking steps reachable from the inputs evaluated in this file. -/
def searchFuel : Nat := 1000000

/-- `re.search`: try an anchored match at each position, leftmost first. -/
def reSearchAux (pat : PyPattern) : List Char → Option (Option (List Char))
  | [] =>
    match runPre searchFuel pat.grp pat.pre [] with
    | some g => some g
    | none => none
  | c :: t =>
    match runPre searchFuel pat.grp pat.pre (c :: t) with
    | some g => some g
    | none => reSearchAux pat t

def reSearch (pat : PyPattern) (text : List Char) : Option (Option (List Char)) :=
  reSearchAux pat text

/-! ## The pattern table (FIELD_PATTERNS), compiled piece by piece -/

/-- A case-insensitive literal character (re.IGNORECASE, ASCII fold). -/
def litP (c : Char) : RPiece :=
  RPiece.one (fun d => d.toLower = c.toLower)

/-- A literal string, one case-insensitive piece per character. -/
def lits (s : String) : List RPiece :=
  s.data.map litP

/-- `\w` (ASCII). -/
def wordChar (c : Char) : Bool := c.isAlphanum || c = '_'

/-- `[\w\-\/]` -/
def policyNumCls (c : Char) : Bool := wordChar c || c = '-' || c = '/'

/-- The apostrophe character appearing in the name classes. -/
def aposChar : Char := Char.ofNat 39

/-- `[A-Z0-9 ,.'\-]` under IGNORECASE (so lowercase letters match too). -/
def nameCls (c : Char) : Bool :=
  c.isAlpha || c.isDigit || c = ' ' || c = ',' || c = '.' || c = aposChar || c = '-'

/-- `[\d\/\-]` -/
def dateCls (c : Char) : Bool := c.isDigit || c = '/' || c = '-'

/-- `[APM0-9: ]` under IGNORECASE. -/
def timeCls (c : Char) : Bool :=
  c.toUpper = 'A' || c.toUpper = 'P' || c.toUpper = 'M' ||
    c.isDigit || c = ':' || c = ' '

/-- `[\d,\.]` -/
def amtCls (c : Char) : Bool := c.isDigit || c = ',' || c = '.'

/-- `[: ]` -/
def colonSpaceCls (c : Char) : Bool := c = ':' || c = ' '

/-- `.` under re.DOTALL: any character, newline included. -/
def dotAny (_ : Char) : Bool := true

/-- The mandatory field names, in their fixed order (MANDATORY_FIELDS). -/
def MANDATORY_FIELDS : List String :=
  ["Policy Number", "Policyholder Name", "Date of Loss", "Time of Loss",
   "Location", "Description", "Claim Type", "Estimated Damage", "Asset Type",
   "Initial Estimate", "Attachments"]

/-- The fixed title phrase used for the Asset Type rule and fallback. -/
def TITLE_PHRASE : String := "AUTOMOBILE LOSS NOTICE"

/-- FIELD_PATTERNS, in the source's insertion order.  Each regex is
compiled to its pieces; every pattern ends with its single capture
group, except the Asset Type entry which is a bare literal with no
group (`grp = none`). -/
def FIELD_PATTERNS : List (String × PyPattern) :=
  [("Policy Number",
    ⟨lits "POLICY NUMBER" ++ [RPiece.star pySpace false],
     some [RPiece.plus policyNumCls]⟩),
   ("Policyholder Name",
    ⟨lits "NAME OF INSURED" ++ [RPiece.star dotAny true, litP '\n'],
     some [RPiece.plus nameCls]⟩),
   ("Date of Loss",
    ⟨lits "DATE OF LOSS AND TIME" ++ [RPiece.star pySpace false],
     some [RPiece.plus dateCls]⟩),
   ("Time of Loss",
    ⟨lits "DATE OF LOSS AND TIME" ++
       [RPiece.star pySpace false, RPiece.plus dateCls, RPiece.star pySpace false],
     some [RPiece.plus timeCls]⟩),
   ("Location",
    ⟨lits "LOCATION OF LOSS" ++ [RPiece.star pySpace false, litP '\n'],
     some [RPiece.plus dotAny]⟩),
   ("Description",
    ⟨lits "DESCRIPTION OF ACCIDENT" ++ [RPiece.star dotAny true, litP '\n'],
     some [RPiece.plus dotAny]⟩),
   ("Claim Type",
    ⟨lits "LINE OF BUSINESS" ++ [RPiece.star pySpace false],
     some [RPiece.plus nameCls]⟩),
   ("Estimated Damage",
    ⟨lits "ESTIMATE AMOUNT" ++
       [RPiece.star colonSpaceCls false, RPiece.opt (fun c => c = '$')],
     some [RPiece.plus amtCls]⟩),
   ("Asset Type",
    ⟨lits TITLE_PHRASE, none⟩)]

/-! ## The field map and the extractor -/

/-- The one Python exception reachable in the embedded core:
`match.group(1)` on a pattern that has no capture group. -/
inductive PyErr where
  | indexError
deriving DecidableEq

/-- The extracted-field dictionary: keys in insertion order, `none`
values standing for Python `None`. -/
def FieldMap : Type := List (String × Option String)

instance : DecidableEq FieldMap := by
  unfold FieldMap
  infer_instance

instance : Inhabited FieldMap := ⟨([] : List (String × Option String))⟩

/-- `dict` assignment `m[key] = v`: replace the existing binding in
place, or append a new one. -/
def setField : FieldMap → String → Option String → FieldMap
  | [], key, v => [(key, v)]
  | (k, w) :: rest, key, v =>
    if k = key then (key, v) :: rest else (k, w) :: setField rest key v

/-- Raw dictionary lookup: `none` when the key is absent. -/
def fmLookup : FieldMap → String → Option (Option String)
  | [], _ => none
  | (k, v) :: rest, key => if k = key then some v else fmLookup rest key

/-- `dict.get(key)`: `None` both for an absent key and a `None` value. -/
def pyGet (m : FieldMap) (key : String) : Option String :=
  (fmLookup m key).getD none

/-- The key list of a field map. -/
def fmKeys (m : FieldMap) : List String :=
  m.map Prod.fst

/-- The dictionary `{k: None for k in MANDATORY_FIELDS}`. -/
def initFields : FieldMap :=
  MANDATORY_FIELDS.map (fun k => (k, none))

/-- One iteration of the extraction loop: `re.search`, then
`match.group(1).strip()` — which raises IndexError when the pattern has
no capture group — then the Asset Type value override, then the
dictionary assignment.  The override is applied after the `group(1)`
call, exactly as in the source. -/
def applyPattern (m : FieldMap) (name : String) (pat : PyPattern)
    (text : List Char) : Except PyErr FieldMap :=
  match reSearch pat text with
  | none => Except.ok m
  | some none => Except.error PyErr.indexError
  | some (some cap) =>
    let value := String.mk (pyStrip cap)
    let value := if name = "Asset Type" then "Automobile" else value
    Except.ok (setField m name (some value))

/-- The extraction loop over the pattern table, in table order. -/
def runPatterns : List (String × PyPattern) → FieldMap → List Char →
    Except PyErr FieldMap
  | [], m, _ => Except.ok m
  | (name, pat) :: rest, m, text =>
    match applyPattern m name pat text with
    | Except.error e => Except.error e
    | Except.ok m' => runPatterns rest m' text

/-- `extract_fields`: the regex pass over the table, then the Asset Type
fallback from the title phrase in the uppercased text. -/
def extract_fields (text : String) : Except PyErr FieldMap :=
  match runPatterns FIELD_PATTERNS initFields text.data with
  | Except.error e => Except.error e
  | Except.ok fs =>
    Except.ok
      (if (pyGet fs "Asset Type").isNone &&
          containsSub (pyUpper text).data TITLE_PHRASE.data then
        setField fs "Asset Type" (some "Automobile")
      else fs)

/-! ## parse_amount -/

/-- Base-10 value of a digit list. -/
def digitsVal (ds : List Char) : Nat :=
  ds.foldl (fun a c => 10 * a + (c.toNat - 48)) 0

/-- Python `float()` applied to a (nonempty) string of digits and dots:
it succeeds exactly when there is at most one dot and at least one
digit, and then denotes the obvious decimal value `ip.fp`, i.e. the
rational `(ip * 10^|fp| + fp) / 10^|fp|`.  The value is kept exact as a
rational. -/
def pyFloatOfCleaned (cs : List Char) : Option Rat :=
  let ip := cs.takeWhile Char.isDigit
  match cs.dropWhile Char.isDigit with
  | [] => if ip.isEmpty then none else some (mkRat (digitsVal ip) 1)
  | c :: rest2 =>
    if c = '.' then
      let fp := rest2.takeWhile Char.isDigit
      match rest2.dropWhile Char.isDigit with
      | [] =>
        if ip.isEmpty && fp.isEmpty then none
        else some (mkRat (digitsVal ip * 10 ^ fp.length + digitsVal fp) (10 ^ fp.length))
      | _ :: _ => none
    else none

/-- `parse_amount`: `None`/empty in, strip every character that is not a
digit or a dot, `None` if nothing remains, else `float()` with
`ValueError` mapped to `None`. -/
def parse_amount (amount : Option String) : Option Rat :=
  match amount with
  | none => none
  | some s =>
    if s.data.isEmpty then none
    else
      let cleaned := s.data.filter (fun c => c.isDigit || c = '.')
      if cleaned.isEmpty then none
      else pyFloatOfCleaned cleaned

/-! ## Routing -/

/-- Smallest number of decimal digits after the point needed to write
`q` exactly: the least `k ≤ 29` with `q.den ∣ 10^k` (every value in
this development needs far fewer than 29). -/
def decDigitsExp (q : Rat) : Nat :=
  (((List.range 30).find? (fun k => (10 : Nat) ^ k % q.den = 0)).getD 0)

/-- Rendering of the parsed amount inside the Fast-track justification,
as Python's f-string renders the float: minimal decimal digits, with a
trailing `.0` for whole numbers.  (Agrees with Python for every value
exactly representable as a short decimal, which covers every value the
code can compare against its threshold in this development.) -/
def pyFloatStr (q : Rat) : String :=
  let k := decDigitsExp q
  if k = 0 then toString q.num ++ ".0"
  else
    let ds := toString (q.num.natAbs * ((10 : Nat) ^ k / q.den))
    let ds := if ds.length ≤ k then
        String.mk (List.replicate (k + 1 - ds.length) '0') ++ ds
      else ds
    String.mk (ds.data.take (ds.length - k)) ++ "." ++
      String.mk (ds.data.drop (ds.length - k))

def SUSPICIOUS_WORDS : List String := ["fraud", "inconsistent", "staged"]

/-- `(fields.get("Description") or "").lower()` -/
def descriptionLower (fields : FieldMap) : String :=
  pyLower ((pyGet fields "Description").getD "")

/-- `(fields.get("Claim Type") or "").lower()` -/
def claimTypeLower (fields : FieldMap) : String :=
  pyLower ((pyGet fields "Claim Type").getD "")

/-- `apply_routing_rules`: the strict priority chain.  The source checks
`if missing:` first; here that test and its branch order are preserved
(the non-empty case is the `else` of `missing.isEmpty`). -/
def apply_routing_rules (fields : FieldMap) (missing : List String) :
    String × String :=
  if missing.isEmpty then
    if SUSPICIOUS_WORDS.any (fun w => containsSub (descriptionLower fields).data w.data) then
      ("Investigation Flag", "Description contains potential fraud-related keywords.")
    else if containsSub (claimTypeLower fields).data "injury".data then
      ("Specialist Queue", "Claim type is injury, so it is routed to the specialist queue.")
    else
      match parse_amount (pyGet fields "Estimated Damage") with
      | some v =>
        if v < 25000 then
          ("Fast-track", "Estimated damage (" ++ pyFloatStr v ++ ") is less than 25,000.")
        else
          ("Standard Queue", "All mandatory fields present, no special conditions matched.")
      | none =>
        ("Standard Queue", "All mandatory fields present, no special conditions matched.")
  else
    ("Manual review",
     "One or more mandatory fields are missing: " ++ String.intercalate ", " missing)

/-- Python truthiness test `not fields.get(name)`: true for `None` and
for the empty string (a whitespace-only string is truthy). -/
def pyFalsy : Option String → Bool
  | none => true
  | some s => s.data.isEmpty

/-- `find_missing_fields`. -/
def find_missing_fields (fields : FieldMap) : List String :=
  MANDATORY_FIELDS.filter (fun name => pyFalsy (pyGet fields name))

/-- The core's single output value (AgentOutput dataclass). -/
structure AgentOutput where
  extractedFields : FieldMap
  missingFields : List String
  recommendedRoute : String
  reasoning : String
deriving DecidableEq, Inhabited

/-- `process_pdf` after its excluded collaborator: the PDF-to-text step
(`extract_text_from_pdf`, external by the spec's scope) is taken as
already done, and the core pipeline runs on the raw text. -/
def process_text (text : String) : Except PyErr AgentOutput :=
  match extract_fields text with
  | Except.error e => Except.error e
  | Except.ok fields =>
    let missing := find_missing_fields fields
    let rr := apply_routing_rules fields missing
    Except.ok
      { extractedFields := fields, missingFields := missing,
        recommendedRoute := rr.1, reasoning := rr.2 }

/-! ## Spec-side definitions (for refinement comparisons only) -/

/-- Modelled from the spec's words for the MissingFieldDetector: "a
field counts as missing if its stored value is absent or an
empty/blank string" — blank meaning whitespace-only.  This is the
claimed behaviour, to be compared with `find_missing_fields`. -/
def spec_missing_fields (m : FieldMap) : List String :=
  MANDATORY_FIELDS.filter (fun name =>
    match pyGet m name with
    | none => true
    | some s => (pyStrip s.data).isEmpty)

/-- Modelled from the spec's words for the AmountParser: the cleaned
string is interpretable as a decimal number exactly when it has at most
one decimal point and at least one digit (an empty remainder has no
digit, so it is covered). -/
def isValidDecimal (cs : List Char) : Bool :=
  cs.count '.' ≤ 1 && cs.any Char.isDigit

/-! ## Concrete sample inputs used by the claims -/

/-- A scenario-A document text: every labelled value the form carries,
a clean description, Claim Type "Comprehensive", estimate $10,000. -/
def c2Text : String :=
  "AUTOMOBILE LOSS NOTICE\nPOLICY NUMBER POL-771\nNAME OF INSURED\nJOHN DOE\nDATE OF LOSS AND TIME 12/01/2024 10:30 AM\nLOCATION OF LOSS\nMAIN ST SPRINGFIELD\nDESCRIPTION OF ACCIDENT\nREAR END COLLISION AT LOW SPEED\nLINE OF BUSINESS Comprehensive\nESTIMATE AMOUNT: $10,000"

/-- The same document without the title line (so extraction returns). -/
def c2TextNoTitle : String :=
  "POLICY NUMBER POL-771\nNAME OF INSURED\nJOHN DOE\nDATE OF LOSS AND TIME 12/01/2024 10:30 AM\nLOCATION OF LOSS\nMAIN ST SPRINGFIELD\nDESCRIPTION OF ACCIDENT\nREAR END COLLISION AT LOW SPEED\nLINE OF BUSINESS Comprehensive\nESTIMATE AMOUNT: $10,000"

/-- The field map scenario A describes: all eleven fields populated,
clean description, Claim Type "Comprehensive", estimate $10,000. -/
def c2Fields : FieldMap :=
  [("Policy Number", some "POL-771"), ("Policyholder Name", some "JOHN DOE"),
   ("Date of Loss", some "12/01/2024"), ("Time of Loss", some "10:30 AM"),
   ("Location", some "MAIN ST SPRINGFIELD"),
   ("Description", some "Rear end collision at low speed"),
   ("Claim Type", some "Comprehensive"), ("Estimated Damage", some "$10,000"),
   ("Asset Type", some "Automobile"), ("Initial Estimate", some "9000"),
   ("Attachments", some "photos.zip")]

def c3Text : String := "POLICY NUMBER 12345"

def c3Out : AgentOutput := (process_text c3Text).toOption.getD default

/-- A field map whose Policy Number value is whitespace-only (blank but
non-empty); all other fields hold a visible value. -/
def c5Fields : FieldMap :=
  MANDATORY_FIELDS.map (fun n => (n, some (if n = "Policy Number" then " " else "x")))

def c6CounterText : String := "ACORD AUTOMOBILE LOSS NOTICE PAGE 1"

def c6Text : String := "POLICY NUMBER A-1"

def c6Map : FieldMap := (extract_fields c6Text).toOption.getD []

/-- A complete field map whose description holds a suspicious keyword
and whose claim type also mentions injury (priority 2 vs 3). -/
def c8Fields : FieldMap :=
  MANDATORY_FIELDS.map (fun n =>
    (n, some (if n = "Description" then "The claim appears STAGED and was reported late"
              else if n = "Claim Type" then "Bodily Injury"
              else if n = "Estimated Damage" then "$3,000" else "x")))

/-- A complete field map with a clean description, injury claim type and
a large ($50,000) estimate (priority 3 vs 4). -/
def c9Fields : FieldMap :=
  MANDATORY_FIELDS.map (fun n =>
    (n, some (if n = "Description" then "Rear bumper dented at intersection"
              else if n = "Claim Type" then "Bodily Injury"
              else if n = "Estimated Damage" then "$50,000" else "x")))

/-! ## Helper lemmas: the field map -/

theorem pyFalsy_iff (v : Option String) :
    pyFalsy v = true ↔ v = none ∨ v = some "" := by
  cases v with
  | none => simp [pyFalsy]
  | some s =>
    obtain ⟨data⟩ := s
    simp [pyFalsy, List.isEmpty_iff, String.ext_iff]

theorem fmKeys_setField (m : FieldMap) (k : String) (v : Option String)
    (h : k ∈ fmKeys m) : fmKeys (setField m k v) = fmKeys m := by
  induction m with
  | nil => simp [fmKeys] at h
  | cons p rest ih =>
    obtain ⟨k', w⟩ := p
    by_cases hk : k' = k
    · subst hk
      simp [setField, fmKeys]
    · have hmem : k ∈ fmKeys rest := by
        rcases (List.mem_cons).1 h with h1 | h1
        · exact absurd h1.symm (by simpa [fmKeys] using hk)
        · exact h1
      simp only [setField, fmKeys, List.map_cons, if_neg hk]
      simpa [fmKeys] using congrArg (List.cons k') (ih hmem)

theorem fmLookup_setField_ne (m : FieldMap) (k key : String) (v : Option String)
    (h : key ≠ k) : fmLookup (setField m k v) key = fmLookup m key := by
  have hk : ¬(k = key) := fun e => h e.symm
  induction m with
  | nil => simp [setField, fmLookup, hk]
  | cons p rest ih =>
    obtain ⟨k', w⟩ := p
    by_cases hkk : k' = k
    · subst hkk
      simp [setField, fmLookup, hk]
    · by_cases hky : k' = key
      · simp [setField, fmLookup, hkk, hky, h]
      · simp [setField, fmLookup, hkk, hky, ih]

/-! ## Helper lemmas: the extraction pass -/

theorem applyPattern_ok_shape (m m' : FieldMap) (name : String)
    (pat : PyPattern) (text : List Char)
    (h : applyPattern m name pat text = Except.ok m') :
    m' = m ∨ ∃ v, m' = setField m name (some v) := by
  cases hs : reSearch pat text with
  | none =>
    simp only [applyPattern, hs, Except.ok.injEq] at h
    exact Or.inl h.symm
  | some g =>
    cases g with
    | none =>
      simp only [applyPattern, hs] at h
      exact Except.noConfusion h
    | some cap =>
      simp only [applyPattern, hs, Except.ok.injEq] at h
      exact Or.inr ⟨_, h.symm⟩

theorem runPatterns_ok_lookup (key : String) :
    ∀ (pats : List (String × PyPattern)) (m m' : FieldMap) (text : List Char),
      (∀ p ∈ pats, p.1 ≠ key) → runPatterns pats m text = Except.ok m' →
      fmLookup m' key = fmLookup m key := by
  intro pats
  induction pats with
  | nil =>
    intro m m' text _ h
    cases h
    rfl
  | cons p rest ih =>
    intro m m' text hne h
    obtain ⟨name, pat⟩ := p
    unfold runPatterns at h
    cases ha : applyPattern m name pat text with
    | error e => rw [ha] at h; cases h
    | ok m1 =>
      rw [ha] at h
      have step : fmLookup m1 key = fmLookup m key := by
        rcases applyPattern_ok_shape m m1 name pat text ha with h1 | ⟨v, h1⟩
        · rw [h1]
        · rw [h1]
          exact fmLookup_setField_ne m name key (some v)
            (fun e => hne (name, pat) (List.mem_cons_self ..) e.symm)
      rw [ih m1 m' text (fun q hq => hne q (List.mem_cons_of_mem _ hq)) h, step]

theorem runPatterns_ok_keys :
    ∀ (pats : List (String × PyPattern)) (m m' : FieldMap) (text : List Char),
      (∀ p ∈ pats, p.1 ∈ fmKeys m) → runPatterns pats m text = Except.ok m' →
      fmKeys m' = fmKeys m := by
  intro pats
  induction pats with
  | nil =>
    intro m m' text _ h
    cases h
    rfl
  | cons p rest ih =>
    intro m m' text hmem h
    obtain ⟨name, pat⟩ := p
    unfold runPatterns at h
    cases ha : applyPattern m name pat text with
    | error e => rw [ha] at h; cases h
    | ok m1 =>
      rw [ha] at h
      have step : fmKeys m1 = fmKeys m := by
        rcases applyPattern_ok_shape m m1 name pat text ha with h1 | ⟨v, h1⟩
        · rw [h1]
        · rw [h1]
          exact fmKeys_setField m name (some v) (hmem (name, pat) (List.mem_cons_self ..))
      have hmem' : ∀ q ∈ rest, q.1 ∈ fmKeys m1 := by
        intro q hq
        rw [step]
        exact hmem q (List.mem_cons_of_mem _ hq)
      rw [ih m1 m' text hmem' h, step]

theorem extract_fields_ok_shape (t : String) (m : FieldMap)
    (h : extract_fields t = Except.ok m) :
    ∃ fs, runPatterns FIELD_PATTERNS initFields t.data = Except.ok fs ∧
      (m = fs ∨ m = setField fs "Asset Type" (some "Automobile")) := by
  unfold extract_fields at h
  cases hr : runPatterns FIELD_PATTERNS initFields t.data with
  | error e => rw [hr] at h; cases h
  | ok fs =>
    rw [hr] at h
    simp only [Except.ok.injEq] at h
    refine ⟨fs, rfl, ?_⟩
    by_cases hc : ((pyGet fs "Asset Type").isNone &&
        containsSub (pyUpper t).data TITLE_PHRASE.data) = true
    · rw [if_pos hc] at h
      exact Or.inr h.symm
    · rw [if_neg hc] at h
      exact Or.inl h.symm

theorem extract_fields_ok_keys (t : String) (m : FieldMap)
    (h : extract_fields t = Except.ok m) : fmKeys m = MANDATORY_FIELDS := by
  obtain ⟨fs, hr, hm⟩ := extract_fields_ok_shape t m h
  have hpats : ∀ p ∈ FIELD_PATTERNS, p.1 ∈ fmKeys initFields := by decide
  have hk : fmKeys fs = MANDATORY_FIELDS := by
    rw [runPatterns_ok_keys FIELD_PATTERNS initFields fs t.data hpats hr]
    rfl
  rcases hm with hm | hm
  · rw [hm, hk]
  · rw [hm, fmKeys_setField fs "Asset Type" (some "Automobile") (by rw [hk]; decide), hk]

theorem extract_fields_ok_lookup_none (t : String) (m : FieldMap) (key : String)
    (hpat : ∀ p ∈ FIELD_PATTERNS, p.1 ≠ key) (hat : key ≠ "Asset Type")
    (hinit : fmLookup initFields key = some none)
    (h : extract_fields t = Except.ok m) : fmLookup m key = some none := by
  obtain ⟨fs, hr, hm⟩ := extract_fields_ok_shape t m h
  have hfs : fmLookup fs key = some none := by
    rw [runPatterns_ok_lookup key FIELD_PATTERNS initFields fs t.data hpat hr, hinit]
  rcases hm with hm | hm
  · rw [hm, hfs]
  · rw [hm, fmLookup_setField_ne fs "Asset Type" key (some "Automobile") hat, hfs]

/-! ## Helper lemmas: routing -/

theorem routing_missing_nonempty (fields : FieldMap) (missing : List String)
    (h : missing ≠ []) :
    apply_routing_rules fields missing =
      ("Manual review",
       "One or more mandatory fields are missing: " ++ String.intercalate ", " missing) := by
  cases missing with
  | nil => exact absurd rfl h
  | cons x xs => rfl

theorem process_text_ok_manual (t : String) (out : AgentOutput)
    (h : process_text t = Except.ok out) :
    "Initial Estimate" ∈ out.missingFields ∧ "Attachments" ∈ out.missingFields ∧
      out.recommendedRoute = "Manual review" := by
  unfold process_text at h
  cases he : extract_fields t with
  | error e => rw [he] at h; cases h
  | ok fields =>
    rw [he] at h
    simp only [Except.ok.injEq] at h
    have hpgIE : pyGet fields "Initial Estimate" = none := by
      unfold pyGet
      rw [extract_fields_ok_lookup_none t fields "Initial Estimate"
        (by decide) (by decide) rfl he]
      rfl
    have hpgAt : pyGet fields "Attachments" = none := by
      unfold pyGet
      rw [extract_fields_ok_lookup_none t fields "Attachments"
        (by decide) (by decide) rfl he]
      rfl
    have hIE : "Initial Estimate" ∈ find_missing_fields fields := by
      show "Initial Estimate" ∈
        MANDATORY_FIELDS.filter (fun name => pyFalsy (pyGet fields name))
      apply List.mem_filter.mpr
      refine ⟨by decide, ?_⟩
      show pyFalsy (pyGet fields "Initial Estimate") = true
      rw [hpgIE]
      rfl
    have hAt : "Attachments" ∈ find_missing_fields fields := by
      show "Attachments" ∈
        MANDATORY_FIELDS.filter (fun name => pyFalsy (pyGet fields name))
      apply List.mem_filter.mpr
      refine ⟨by decide, ?_⟩
      show pyFalsy (pyGet fields "Attachments") = true
      rw [hpgAt]
      rfl
    have hne : find_missing_fields fields ≠ [] := List.ne_nil_of_mem hIE
    rw [← h]
    refine ⟨hIE, hAt, ?_⟩
    show (apply_routing_rules fields (find_missing_fields fields)).1 = "Manual review"
    rw [routing_missing_nonempty fields (find_missing_fields fields) hne]

/-! ## Helper lemmas: the amount parser -/

theorem dropWhile_head_false {p : Char → Bool} :
    ∀ (l : List Char) (c : Char) (t : List Char),
      l.dropWhile p = c :: t → p c = false := by
  intro l
  induction l with
  | nil => intro c t h; cases h
  | cons a l ih =>
    intro c t h
    rw [List.dropWhile_cons] at h
    cases hpa : p a with
    | true =>
      simp only [hpa, if_true] at h
      exact ih c t h
    | false =>
      simp only [hpa, Bool.false_eq_true, if_false] at h
      obtain ⟨h1, _⟩ := List.cons.injEq .. ▸ h
      exact h1 ▸ hpa

theorem count_dot_zero_of_digits (l : List Char)
    (hall : ∀ c ∈ l, c.isDigit = true) : l.count '.' = 0 := by
  apply List.count_eq_zero.mpr
  intro hm
  have := hall _ hm
  simp at this

theorem pyFloatOfCleaned_isSome (cs : List Char)
    (h : ∀ c ∈ cs, c.isDigit = true ∨ c = '.') :
    (pyFloatOfCleaned cs).isSome = true ↔ isValidDecimal cs = true := by
  have hsplit : cs.takeWhile Char.isDigit ++ cs.dropWhile Char.isDigit = cs :=
    List.takeWhile_append_dropWhile Char.isDigit cs
  have hipd : ∀ c ∈ cs.takeWhile Char.isDigit, c.isDigit = true :=
    fun c hc => List.mem_takeWhile_imp hc
  cases hd : cs.dropWhile Char.isDigit with
  | nil =>
    have hcs : cs.takeWhile Char.isDigit = cs := by
      rw [hd, List.append_nil] at hsplit
      exact hsplit
    have hall : ∀ c ∈ cs, c.isDigit = true :=
      fun c hc => hipd c (by rw [hcs]; exact hc)
    rw [show pyFloatOfCleaned cs =
        (if (cs.takeWhile Char.isDigit).isEmpty then none
         else some (mkRat (digitsVal (cs.takeWhile Char.isDigit)) 1)) from by
      unfold pyFloatOfCleaned
      rw [hd]]
    rw [hcs]
    cases cs with
    | nil => simp [isValidDecimal]
    | cons a l =>
      rw [if_neg (by simp)]
      simp only [Option.isSome_some, true_iff]
      unfold isValidDecimal
      rw [count_dot_zero_of_digits _ hall]
      have : (a :: l).any Char.isDigit = true :=
        List.any_eq_true.mpr ⟨a, List.mem_cons_self .., hall a (List.mem_cons_self ..)⟩
      rw [this]
      rfl
  | cons c rest2 =>
    have hcf : Char.isDigit c = false := dropWhile_head_false cs c rest2 hd
    have hcm : c ∈ cs :=
      (List.dropWhile_sublist Char.isDigit).subset (hd ▸ List.mem_cons_self ..)
    have hcdot : c = '.' := by
      rcases h c hcm with hdg | hdot
      · rw [hcf] at hdg; cases hdg
      · exact hdot
    subst hcdot
    have hsplit2 : rest2.takeWhile Char.isDigit ++ rest2.dropWhile Char.isDigit = rest2 :=
      List.takeWhile_append_dropWhile Char.isDigit rest2
    have hfpd : ∀ c ∈ rest2.takeWhile Char.isDigit, c.isDigit = true :=
      fun c hc => List.mem_takeWhile_imp hc
    have hcseq : cs = cs.takeWhile Char.isDigit ++ '.' :: rest2 := by
      rw [← hd, hsplit]
    cases hd2 : rest2.dropWhile Char.isDigit with
    | nil =>
      have hfp : rest2.takeWhile Char.isDigit = rest2 := by
        rw [hd2, List.append_nil] at hsplit2
        exact hsplit2
      have hall2 : ∀ c ∈ rest2, c.isDigit = true :=
        fun c hc => hfpd c (by rw [hfp]; exact hc)
      rw [show pyFloatOfCleaned cs =
          (if (cs.takeWhile Char.isDigit).isEmpty && (rest2.takeWhile Char.isDigit).isEmpty
           then none
           else some (mkRat
             (digitsVal (cs.takeWhile Char.isDigit) * 10 ^ (rest2.takeWhile Char.isDigit).length
               + digitsVal (rest2.takeWhile Char.isDigit))
             (10 ^ (rest2.takeWhile Char.isDigit).length))) from by
        unfold pyFloatOfCleaned
        rw [hd]
        simp only [hd2]
        simp]
      have hcount : cs.count '.' = 1 := by
        rw [hcseq, List.count_append, List.count_cons,
          count_dot_zero_of_digits _ hipd, count_dot_zero_of_digits _ hall2]
        rfl
      have hany : cs.any Char.isDigit =
          !((cs.takeWhile Char.isDigit).isEmpty && (rest2.takeWhile Char.isDigit).isEmpty) := by
        rw [hcseq, hfp]
        cases hip : cs.takeWhile Char.isDigit with
        | nil =>
          simp only [List.nil_append, List.any_cons, List.isEmpty_nil, Bool.true_and]
          rw [show ('.').isDigit = false from rfl]
          cases hr2 : rest2 with
          | nil => rfl
          | cons d l =>
            have hdd : d.isDigit = true := hall2 d (hr2 ▸ List.mem_cons_self ..)
            simp [hdd]
        | cons a l =>
          have had : a.isDigit = true := hipd a (hip ▸ List.mem_cons_self ..)
          simp [had]
      unfold isValidDecimal
      rw [hcount, hany]
      cases ((cs.takeWhile Char.isDigit).isEmpty && (rest2.takeWhile Char.isDigit).isEmpty) with
      | true => simp
      | false => simp
    | cons d rest3 =>
      have hdf : Char.isDigit d = false := dropWhile_head_false rest2 d rest3 hd2
      have hdm : d ∈ cs := by
        rw [hcseq]
        apply List.mem_append_right
        apply List.mem_cons_of_mem
        exact (List.dropWhile_sublist Char.isDigit).subset (hd2 ▸ List.mem_cons_self ..)
      have hddot : d = '.' := by
        rcases h d hdm with hdg | hdot
        · rw [hdf] at hdg; cases hdg
        · exact hdot
      subst hddot
      have hrest2 : rest2 = rest2.takeWhile Char.isDigit ++ '.' :: rest3 := by
        rw [← hd2, hsplit2]
      have hcount : 2 ≤ cs.count '.' := by
        rw [hcseq, hrest2]
        simp [List.count_append, List.count_cons]
        omega
      rw [show pyFloatOfCleaned cs = none from by
        unfold pyFloatOfCleaned
        rw [hd]
        simp only [hd2]
        simp]
      unfold isValidDecimal
      have : decide (cs.count '.' ≤ 1) = false := by
        apply decide_eq_false
        omega
      rw [this]
      simp

theorem parse_amount_isSome_iff (s : String) :
    (parse_amount (some s)).isSome = true ↔
      isValidDecimal (s.data.filter (fun c => c.isDigit || c = '.')) = true := by
  unfold parse_amount
  dsimp only
  by_cases he : s.data.isEmpty = true
  · rw [if_pos he]
    rw [List.isEmpty_iff.mp he]
    simp [isValidDecimal]
  · rw [if_neg he]
    by_cases hc : (s.data.filter (fun c => c.isDigit || c = '.')).isEmpty = true
    · rw [if_pos hc]
      rw [List.isEmpty_iff.mp hc]
      simp [isValidDecimal]
    · rw [if_neg hc]
      apply pyFloatOfCleaned_isSome
      intro c hcm
      have hp := (List.mem_filter.mp hcm).2
      rcases (Bool.or_eq_true ..).mp hp with h1 | h1
      · exact Or.inl h1
      · exact Or.inr (by simpa using h1)

/-! ## The claims -/

/-- Claim C1 (code bug).  The claim says the field extractor never
raises and in particular returns normally for texts in which the Asset
Type title-phrase pattern matches.  On the code the opposite holds:
for any text containing the title phrase, `match.group(1)` is called on
the group-less Asset Type pattern and raises IndexError; for texts
without the phrase the extractor does return the fully-keyed map.  This
theorem evaluates both behaviours. -/
theorem fnol_C1_eval :
    extract_fields "AUTOMOBILE LOSS NOTICE" = Except.error PyErr.indexError ∧
    extract_fields "" = Except.ok initFields :=
  ⟨rfl, rfl⟩

/-- Claim C2, counterexample.  A scenario-A text (all labelled values,
clean description, Claim Type "Comprehensive", estimate $10,000) does
not produce Fast-track: with the title line the pipeline raises, and
without it the never-extracted fields force Manual review. -/
theorem fnol_C2_counterexample :
    process_text c2Text = Except.error PyErr.indexError ∧
    (process_text c2TextNoTitle).map (fun o => o.recommendedRoute) =
      Except.ok "Manual review" :=
  ⟨rfl, rfl⟩

/-- Claim C2, amended.  The routing engine itself, applied to the field
map scenario A describes (all eleven values present, empty missing
list), returns Fast-track with a justification that mentions the parsed
value 10000 and the threshold, rendered 25,000. -/
theorem fnol_C2_amended :
    apply_routing_rules c2Fields [] =
      ("Fast-track", "Estimated damage (10000.0) is less than 25,000.") ∧
    containsSub "Estimated damage (10000.0) is less than 25,000.".data
      "10000".data = true ∧
    containsSub "Estimated damage (10000.0) is less than 25,000.".data
      "25,000".data = true :=
  ⟨by decide, by decide, by decide⟩

/-- Claim C3, counterexample.  The pipeline's routing decision is not
Manual review for every input text: a text containing the title phrase
makes the extractor raise, so the pipeline produces no decision at all. -/
theorem fnol_C3_counterexample :
    process_text "FNOL AUTOMOBILE LOSS NOTICE" = Except.error PyErr.indexError :=
  rfl

/-- Claim C3, amended.  For every input text on which the pipeline
returns normally, the missing list contains both "Initial Estimate" and
"Attachments" (the extractor has no rule for either), and consequently
the routing decision is Manual review. -/
theorem fnol_C3_amended (t : String) (out : AgentOutput)
    (h : process_text t = Except.ok out) :
    "Initial Estimate" ∈ out.missingFields ∧ "Attachments" ∈ out.missingFields ∧
      out.recommendedRoute = "Manual review" :=
  process_text_ok_manual t out h

/-- Witness for C3 at a concrete text. -/
theorem fnol_C3_witness :
    "Initial Estimate" ∈ c3Out.missingFields ∧ "Attachments" ∈ c3Out.missingFields ∧
      c3Out.recommendedRoute = "Manual review" :=
  fnol_C3_amended c3Text c3Out rfl

/-- Claim C4 (code bug).  The claim says a detected title phrase forces
Asset Type to "Automobile".  On the code, a detected title phrase makes
`extract_fields` raise IndexError instead (the `group(1)` call precedes
the Asset Type special case, and the pattern has no group), so the
forced value and the fallback are unreachable; when the phrase is
absent, Asset Type is indeed absent, as evaluated here. -/
theorem fnol_C4_eval :
    extract_fields "Re: automobile loss notice form" = Except.error PyErr.indexError ∧
    (extract_fields "POLICY NUMBER 99").map (fun m => pyGet m "Asset Type") =
      Except.ok none :=
  ⟨rfl, rfl⟩

/-- Claim C5, counterexample.  A whitespace-only (blank but non-empty)
stored value is treated as present by the detector, so its output
differs from the spec-worded blank-is-missing detector. -/
theorem fnol_C5_counterexample :
    pyGet c5Fields "Policy Number" = some " " ∧
    find_missing_fields c5Fields = [] ∧
    spec_missing_fields c5Fields = ["Policy Number"] :=
  ⟨by decide, by decide, by decide⟩

/-- Claim C5, amended.  The detector returns exactly the fields whose
stored value is absent or the empty string (a whitespace-only non-empty
value counts as present), as an order-preserving subsequence of the
Mandatory Field Set. -/
theorem fnol_C5_amended (m : FieldMap) :
    List.Sublist (find_missing_fields m) MANDATORY_FIELDS ∧
    (∀ n, n ∈ find_missing_fields m ↔
      n ∈ MANDATORY_FIELDS ∧ (pyGet m n = none ∨ pyGet m n = some "")) := by
  constructor
  · exact List.filter_sublist MANDATORY_FIELDS
  · intro n
    constructor
    · intro hn
      have hmf := List.mem_filter.mp hn
      exact ⟨hmf.1, (pyFalsy_iff _).mp hmf.2⟩
    · intro hn
      exact List.mem_filter.mpr ⟨hn.1, (pyFalsy_iff _).mpr hn.2⟩

/-- Claim C6, counterexample.  The key set of "the Field Map returned"
is not the Mandatory Field Set for every input: for a text containing
the title phrase no map is returned at all — the extractor raises. -/
theorem fnol_C6_counterexample :
    extract_fields c6CounterText = Except.error PyErr.indexError :=
  rfl

/-- Claim C6, amended.  Whenever the extractor does return a field map,
its key list is exactly the eleven-name Mandatory Field Set, in order —
absent values are represented as stored `none`, never omitted. -/
theorem fnol_C6_amended (t : String) (m : FieldMap)
    (h : extract_fields t = Except.ok m) : fmKeys m = MANDATORY_FIELDS :=
  extract_fields_ok_keys t m h

/-- Witness for C6 at a concrete text. -/
theorem fnol_C6_witness : fmKeys c6Map = MANDATORY_FIELDS :=
  fnol_C6_amended c6Text c6Map rfl

/-- Claim C7 (confirmed).  For every field map and every non-empty
missing list (an order-preserving subsequence of the Mandatory Field
Set), the routing engine returns Manual review, and its justification
carries the missing names joined in that order. -/
theorem fnol_C7 (fields : FieldMap) (missing : List String)
    (hne : missing ≠ []) (_hsub : List.Sublist missing MANDATORY_FIELDS) :
    apply_routing_rules fields missing =
      ("Manual review",
       "One or more mandatory fields are missing: " ++
         String.intercalate ", " missing) :=
  routing_missing_nonempty fields missing hne

/-- Witness for C7: every mandatory field missing, empty field map. -/
theorem fnol_C7_witness :
    apply_routing_rules ([] : FieldMap) MANDATORY_FIELDS =
      ("Manual review",
       "One or more mandatory fields are missing: " ++
         String.intercalate ", " MANDATORY_FIELDS) :=
  fnol_C7 [] MANDATORY_FIELDS (by decide) (List.Sublist.refl MANDATORY_FIELDS)

/-- Claim C8 (confirmed).  With an empty missing list, a description
containing any suspicious keyword (case-insensitively) routes to
Investigation Flag with the fixed justification — regardless of every
other field, injury claim types included. -/
theorem fnol_C8 (fields : FieldMap)
    (h : ∃ w ∈ SUSPICIOUS_WORDS,
      containsSub (descriptionLower fields).data w.data = true) :
    apply_routing_rules fields [] =
      ("Investigation Flag",
       "Description contains potential fraud-related keywords.") := by
  have hany : (SUSPICIOUS_WORDS.any
      (fun w => containsSub (descriptionLower fields).data w.data)) = true := by
    rcases h with ⟨w, hw, hcs⟩
    exact List.any_eq_true.mpr ⟨w, hw, hcs⟩
  simp [apply_routing_rules, hany]

/-- Witness for C8: a staged-keyword description together with an
injury claim type still yields Investigation Flag (priority 2 over 3). -/
theorem fnol_C8_witness :
    apply_routing_rules c8Fields [] =
      ("Investigation Flag",
       "Description contains potential fraud-related keywords.") :=
  fnol_C8 c8Fields ⟨"staged", by decide, by decide⟩

/-- Claim C9 (confirmed).  With an empty missing list, no suspicious
keyword in the description, and a claim type containing "injury"
case-insensitively, routing is Specialist Queue — the estimate is never
consulted. -/
theorem fnol_C9 (fields : FieldMap)
    (hs : ∀ w ∈ SUSPICIOUS_WORDS,
      containsSub (descriptionLower fields).data w.data = false)
    (hi : containsSub (claimTypeLower fields).data "injury".data = true) :
    apply_routing_rules fields [] =
      ("Specialist Queue",
       "Claim type is injury, so it is routed to the specialist queue.") := by
  have hany : (SUSPICIOUS_WORDS.any
      (fun w => containsSub (descriptionLower fields).data w.data)) = false := by
    apply List.any_eq_false.mpr
    intro w hw hcontra
    rw [hs w hw] at hcontra
    cases hcontra
  simp [apply_routing_rules, hany, hi]

/-- Witness for C9: Bodily Injury claim type with a $50,000 estimate
routes to Specialist Queue. -/
theorem fnol_C9_witness :
    apply_routing_rules c9Fields [] =
      ("Specialist Queue",
       "Claim type is injury, so it is routed to the specialist queue.") :=
  fnol_C9 c9Fields (by decide) (by decide)

/-- Claim C10 (confirmed).  The amount parser never raises (it is a
total function here); after stripping every character that is not a
digit or a dot it returns a value exactly when the remainder is a valid
decimal numeral (at most one dot, at least one digit — the empty
remainder has none); "$12,500.00" parses to 12500.00 and the malformed
"12.5.00" yields absent. -/
theorem fnol_C10 :
    parse_amount none = none ∧
    (∀ s : String, (parse_amount (some s)).isSome = true ↔
      isValidDecimal (s.data.filter (fun c => c.isDigit || c = '.')) = true) ∧
    parse_amount (some "$12,500.00") = some (12500 : Rat) ∧
    parse_amount (some "12.5.00") = none :=
  ⟨rfl, parse_amount_isSome_iff, by decide, by decide⟩
